import Mathlib

/-!
Shallow embedding of the ZIP manager (zip_manager.py, menu_system.py).

The archive and the filesystem are external to the program, so each embedded
operation is parametrised by the outcome of the library calls it makes:
a value of `Except OpenError (List ZipInfo)` stands for
`zipfile.ZipFile(zip_path, 'r')` together with `infolist()` (the error
constructors are the exception classes the code catches), a function
`ZipInfo -> ReadOutcome` stands for `zip_file.read(member, pwd)`, and a
function `ZipInfo -> Bool` stands for `zip_file.extract(member, dest, pwd)`
succeeding or raising.  Control flow (loops, try/except, early returns) is
translated statement by statement from the source.
-/

/-- Embeds the class `ZipInfo` of zip_manager.py (lines 11-34): the normalized
view of one archive member.  The field `date_time` and the method
`get_formatted_date` are omitted: no claim mentions them. -/
structure ZipInfo where
  filename : String
  file_size : Nat
  compress_size : Nat
  is_dir : Bool
  crc : Nat
deriving DecidableEq, Repr, Inhabited

/-- Embeds `ZipInfo.get_compression_ratio` (zip_manager.py lines 30-34).
Python computes in floating point; the claim compares the code with its own
closed formula, so the exact rational value represents both sides. -/
def ZipInfo.get_compression_ratio (z : ZipInfo) : ℚ :=
  if z.file_size = 0 then 0
  else (1 - ((z.compress_size : ℚ) / (z.file_size : ℚ))) * 100

/-- The spec formula for the compression ratio, written from the spec words
(section 3): derived value (1 - compressed_size/uncompressed_size) * 100,
defined as 0.0 when uncompressed_size == 0. -/
def compression_ratio_from_spec (uncompressed_size compressed_size : Nat) : ℚ :=
  if uncompressed_size = 0 then 0
  else (1 - ((compressed_size : ℚ) / (uncompressed_size : ℚ))) * 100

/-- The exception classes the except-clauses of zip_manager.py distinguish
when opening an archive. -/
inductive OpenError
  | fileNotFound
  | badZipFile
  | runtimeError
  | otherError
deriving DecidableEq, Repr

/-- Outcome of `zip_file.read(member, pwd)` on one member: success,
`RuntimeError` (the authentication failure the code catches),
`zipfile.BadZipFile` (corruption, also caught member-wise), or any other
exception (e.g. `zlib.error`), which the member-wise handlers do not catch. -/
inductive ReadOutcome
  | ok
  | authError
  | corruptError
  | otherError
deriving DecidableEq, Repr

/-- Python truthiness of the `password: Optional[str]` argument as used by
`if password:` — `None` and the empty string are falsy. -/
def pyTruthy : Option String → Bool
  | none => false
  | some s => !s.isEmpty

/-- The mutable fields of `ZipManager` (zip_manager.py lines 39-42). -/
structure ManagerState where
  current_zip_path : Option String
  current_zip_info : Option (List ZipInfo)
  password : Option String
deriving DecidableEq, Repr

/-- The member loop of `ZipManager.list_zip_contents` (lines 53-62): for each
entry, when a password is set and the entry is not a directory, attempt a
read; `RuntimeError` and `BadZipFile` are caught and the member skipped, any
other exception escapes the loop (modelled as `none`); otherwise the entry is
appended to `file_list`. -/
def listLoop (hasPwd : Bool) (read : ZipInfo → ReadOutcome) (acc : List ZipInfo) :
    List ZipInfo → Option (List ZipInfo)
  | [] => some acc
  | info :: rest =>
    if hasPwd && !info.is_dir then
      match read info with
      | ReadOutcome.ok => listLoop hasPwd read (acc ++ [info]) rest
      | ReadOutcome.authError => listLoop hasPwd read acc rest
      | ReadOutcome.corruptError => listLoop hasPwd read acc rest
      | ReadOutcome.otherError => none
    else
      listLoop hasPwd read (acc ++ [info]) rest

/-- Embeds `ZipManager.list_zip_contents` (zip_manager.py lines 44-81).
Every except-clause of the function prints a message and falls through to
`return None`, leaving the manager state untouched; on success the three
session fields are assigned together and the file list returned. -/
def list_zip_contents (openResult : Except OpenError (List ZipInfo))
    (read : ZipInfo → ReadOutcome) (st : ManagerState)
    (zip_path : String) (password : Option String) :
    ManagerState × Option (List ZipInfo) :=
  match openResult with
  | Except.error _ => (st, none)
  | Except.ok infos =>
    match listLoop (pyTruthy password) read [] infos with
    | none => (st, none)
    | some file_list =>
      ({ current_zip_path := some zip_path,
         current_zip_info := some file_list,
         password := password }, some file_list)

/-- The extraction loop of `ZipManager.extract_all_files` (lines 149-161):
each successful `zip_file.extract` increments `extracted_count`, any
exception from a member is caught, reported and the loop continues.  The
list of successfully extracted members is carried alongside the count. -/
def extractAllLoop (extractOk : ZipInfo → Bool) (count : Nat) (done : List ZipInfo) :
    List ZipInfo → Nat × List ZipInfo
  | [] => (count, done)
  | f :: rest =>
    if extractOk f then extractAllLoop extractOk (count + 1) (done ++ [f]) rest
    else extractAllLoop extractOk count done rest

/-- Embeds `ZipManager.extract_all_files` (zip_manager.py lines 126-179).
`mkdirOk` is the result of `FileUtils.create_directory(extract_to)`;
`files_to_extract` keeps only non-directory members; zero members is an
early `return True`; otherwise the result is `extracted_count > 0`. -/
def extract_all_files (mkdirOk : Bool) (openResult : Except OpenError (List ZipInfo))
    (extractOk : ZipInfo → Bool) : Bool × Nat × List ZipInfo :=
  if !mkdirOk then (false, 0, [])
  else
    match openResult with
    | Except.error _ => (false, 0, [])
    | Except.ok infos =>
      let files_to_extract := infos.filter (fun f => !f.is_dir)
      if files_to_extract.length = 0 then (true, 0, [])
      else
        let r := extractAllLoop extractOk 0 [] files_to_extract
        (decide (0 < r.1), r.1, r.2)

/-- The index validation of `ZipManager.extract_selected_files` (lines
195-197): keep the indices `i` with `0 <= i <= max_index` where
`max_index = len(file_list) - 1`, in the order given, duplicates kept. -/
def valid_indices (indices : List Int) (n : Nat) : List Int :=
  indices.filter (fun i => decide (0 ≤ i) && decide (i ≤ (n : Int) - 1))

/-- The lookup `file_info = file_list[index]` of zip_manager.py line 208;
the loop only evaluates it at indices already validated to be in range, so
the default value is never reached there. -/
def fetchEntry (file_list : List ZipInfo) (i : Int) : ZipInfo :=
  file_list.getD i.toNat default

/-- The extraction loop of `ZipManager.extract_selected_files` (lines
206-224): a directory entry is skipped with a warning, a successful extract
increments `extracted_count`, a failing extract is caught and reported. -/
def selectedLoop (extractOk : ZipInfo → Bool) (file_list : List ZipInfo)
    (count : Nat) (done : List ZipInfo) : List Int → Nat × List ZipInfo
  | [] => (count, done)
  | i :: rest =>
    let file_info := fetchEntry file_list i
    if file_info.is_dir then selectedLoop extractOk file_list count done rest
    else if extractOk file_info then
      selectedLoop extractOk file_list (count + 1) (done ++ [file_info]) rest
    else selectedLoop extractOk file_list count done rest

/-- Embeds `ZipManager.extract_selected_files` (zip_manager.py lines
181-242).  Out-of-range indices are dropped, an empty filtered set is
`return False`, and the final result is `extracted_count > 0`. -/
def extract_selected_files (mkdirOk : Bool) (openResult : Except OpenError (List ZipInfo))
    (extractOk : ZipInfo → Bool) (indices : List Int) : Bool × Nat × List ZipInfo :=
  if !mkdirOk then (false, 0, [])
  else
    match openResult with
    | Except.error _ => (false, 0, [])
    | Except.ok file_list =>
      let valid := valid_indices indices file_list.length
      if valid.isEmpty then (false, 0, [])
      else
        let r := selectedLoop extractOk file_list 0 [] valid
        (decide (0 < r.1), r.1, r.2)

/-- Embeds `MenuSystem.check_password_needed` (menu_system.py lines 371-388).
The read is attempted on the first non-directory member without a password;
only `RuntimeError` is caught at the read (returning True); every other
exception reaches the outer `except Exception` which also returns True; a
clean read returns False; no readable member falls through to False. -/
def check_password_needed (openResult : Except OpenError (List ZipInfo))
    (read : ZipInfo → ReadOutcome) : Bool :=
  match openResult with
  | Except.error _ => true
  | Except.ok file_list =>
    if file_list.isEmpty then false
    else
      match file_list.find? (fun f => !f.is_dir) with
      | some first_file =>
        match read first_file with
        | ReadOutcome.ok => false
        | ReadOutcome.authError => true
        | ReadOutcome.corruptError => true
        | ReadOutcome.otherError => true
      | none => false

/-- The write loop of `ZipManager._create_standard_zip` (lines 288-297):
each `zip_file.write` failure is caught and reported, the loop continues;
the accumulator records the members actually added. -/
def writeLoop (writeOk : String → Bool) (acc : List String) : List String → List String
  | [] => acc
  | f :: rest =>
    if writeOk f then writeLoop writeOk (acc ++ [f]) rest
    else writeLoop writeOk acc rest

/-- Embeds `ZipManager._create_standard_zip` (zip_manager.py lines 284-305).
`containerOk` is whether the archive container itself could be opened,
written and finalized (the outer try); when it holds the function returns
True regardless of per-file failures, otherwise False. -/
def create_standard_zip (containerOk : Bool) (writeOk : String → Bool)
    (files_to_compress : List String) : Bool × List String :=
  if containerOk then (true, writeLoop writeOk [] files_to_compress)
  else (false, [])

/-! ### Loop characterizations -/

theorem listLoop_eq_filter (read : ZipInfo → ReadOutcome) (l : List ZipInfo) :
    ∀ acc : List ZipInfo,
      (∀ e ∈ l, e.is_dir = false → read e ≠ ReadOutcome.otherError) →
      listLoop true read acc l =
        some (acc ++ l.filter (fun e => e.is_dir || decide (read e = ReadOutcome.ok))) := by
  induction l with
  | nil => intro acc _; simp [listLoop]
  | cons info rest ih =>
    intro acc h
    have hrest : ∀ e ∈ rest, e.is_dir = false → read e ≠ ReadOutcome.otherError :=
      fun e he => h e (List.mem_cons_of_mem _ he)
    cases hdir : info.is_dir with
    | true => simp [listLoop, hdir, List.filter_cons, ih (acc ++ [info]) hrest]
    | false =>
      cases hro : read info with
      | ok => simp [listLoop, hdir, hro, List.filter_cons, ih (acc ++ [info]) hrest]
      | authError => simp [listLoop, hdir, hro, List.filter_cons, ih acc hrest]
      | corruptError => simp [listLoop, hdir, hro, List.filter_cons, ih acc hrest]
      | otherError => exact absurd hro (h info (List.mem_cons_self _ _) hdir)

theorem extractAllLoop_eq (extractOk : ZipInfo → Bool) (l : List ZipInfo) :
    ∀ (count : Nat) (done : List ZipInfo),
      extractAllLoop extractOk count done l =
        (count + (l.filter extractOk).length, done ++ l.filter extractOk) := by
  induction l with
  | nil => intro c d; simp [extractAllLoop]
  | cons f rest ih =>
    intro c d
    cases hf : extractOk f with
    | true =>
      simp only [extractAllLoop, hf, if_true, ih, List.filter_cons, List.length_cons,
        List.append_assoc, List.singleton_append]
      exact Prod.ext (by omega) rfl
    | false =>
      simp [extractAllLoop, hf, ih, List.filter_cons]

theorem selectedLoop_eq (extractOk : ZipInfo → Bool) (fl : List ZipInfo) (idxs : List Int) :
    ∀ (count : Nat) (done : List ZipInfo),
      selectedLoop extractOk fl count done idxs =
        (count + (idxs.filter (fun i =>
            !(fetchEntry fl i).is_dir && extractOk (fetchEntry fl i))).length,
         done ++ (idxs.filter (fun i =>
            !(fetchEntry fl i).is_dir && extractOk (fetchEntry fl i))).map
              (fetchEntry fl)) := by
  induction idxs with
  | nil => intro c d; simp [selectedLoop]
  | cons i rest ih =>
    intro c d
    cases hdir : (fetchEntry fl i).is_dir with
    | true => simp [selectedLoop, hdir, ih, List.filter_cons]
    | false =>
      cases hok : extractOk (fetchEntry fl i) with
      | true =>
        simp only [selectedLoop, hdir, hok, Bool.false_eq_true, if_false, if_true, ih,
          List.filter_cons, Bool.not_false, Bool.true_and, List.length_cons, List.map_cons,
          List.append_assoc, List.singleton_append]
        exact Prod.ext (by omega) rfl
      | false => simp [selectedLoop, hdir, hok, ih, List.filter_cons]

theorem writeLoop_eq (writeOk : String → Bool) (l : List String) :
    ∀ acc : List String, writeLoop writeOk acc l = acc ++ l.filter writeOk := by
  induction l with
  | nil => intro acc; simp [writeLoop]
  | cons f rest ih =>
    intro acc
    cases hf : writeOk f with
    | true => simp [writeLoop, hf, ih, List.filter_cons]
    | false => simp [writeLoop, hf, ih, List.filter_cons]

theorem filter_comm_map (f : α → β) (p : β → Bool) (l : List α) :
    (l.map f).filter p = (l.filter (fun x => p (f x))).map f := by
  induction l with
  | nil => rfl
  | cons x rest ih =>
    cases hx : p (f x) with
    | true => simp [List.filter_cons, hx, ih]
    | false => simp [List.filter_cons, hx, ih]

/-- A filter with an everywhere-false predicate keeps nothing. -/
theorem filter_eq_nil_of_forall (p : α → Bool) (l : List α)
    (h : ∀ a ∈ l, p a = false) : l.filter p = [] := by
  induction l with
  | nil => rfl
  | cons a rest ih =>
    rw [List.filter_cons, if_neg (by simp [h a (List.mem_cons_self a rest)])]
    exact ih (fun b hb => h b (List.mem_cons_of_mem _ hb))

/-- Shared characterization of `list_zip_contents` with a (truthy) password:
as long as no member read raises an exception outside the two caught
classes, the call succeeds and returns exactly the directories together
with the members whose authentication read succeeded. -/
theorem list_zip_contents_password_filter (entries : List ZipInfo)
    (read : ZipInfo → ReadOutcome) (st : ManagerState) (zip_path : String)
    (p : String) (hp : p.isEmpty = false)
    (hother : ∀ e ∈ entries, e.is_dir = false → read e ≠ ReadOutcome.otherError) :
    (list_zip_contents (Except.ok entries) read st zip_path (some p)).2 =
      some (entries.filter (fun e => e.is_dir || decide (read e = ReadOutcome.ok))) := by
  have hpw : pyTruthy (some p) = true := by simp [pyTruthy, hp]
  simp [list_zip_contents, hpw, listLoop_eq_filter read entries [] hother]

/-! ### Sample inputs used by the concrete parts of the claims -/

def sampleFileA : ZipInfo := ⟨"a.txt", 100, 40, false, 1⟩

def sampleFileB : ZipInfo := ⟨"b.txt", 50, 30, false, 2⟩

def sampleFileC : ZipInfo := ⟨"c.txt", 70, 20, false, 3⟩

def sampleDir : ZipInfo := ⟨"d/", 0, 0, true, 0⟩

def badFile : ZipInfo := ⟨"bad.txt", 10, 5, false, 9⟩

/-- A fresh `ZipManager` as built by `__init__` (zip_manager.py lines 39-42). -/
def initState : ManagerState := ⟨none, none, none⟩

/-- A concrete read behaviour: authentication fails on the member named
bad.txt and succeeds on every other member. -/
def readProbe : ZipInfo → ReadOutcome := fun e =>
  if e.filename = "bad.txt" then ReadOutcome.authError else ReadOutcome.ok

/-! ### Claims -/

/-- Claim C5: for every entry, get_compression_ratio equals the spec formula
in all cases — exactly 0 when the uncompressed size is 0, and
(1 - compressed_size/uncompressed_size) * 100 otherwise; as a total function
it never divides by zero and never raises. -/
theorem get_compression_ratio_matches_spec (z : ZipInfo) :
    z.get_compression_ratio = compression_ratio_from_spec z.file_size z.compress_size := by
  rfl

/-- Claim C6: check_password_needed reports true when the archive cannot
even be opened, false when there is no non-directory member (including the
empty archive), and otherwise reports whether the unauthenticated read of
the first non-directory member failed — true both for the authentication
error and for any other exception, false for a clean read. -/
theorem check_password_needed_policy (entries : List ZipInfo)
    (read : ZipInfo → ReadOutcome) :
    (∀ err, check_password_needed (Except.error err) read = true) ∧
    check_password_needed (Except.ok entries) read =
      (match entries.find? (fun f => !f.is_dir) with
       | none => false
       | some f => decide (read f ≠ ReadOutcome.ok)) := by
  refine ⟨fun err => rfl, ?_⟩
  cases entries with
  | nil => rfl
  | cons e rest =>
    cases hf : (e :: rest).find? (fun f => !f.is_dir) with
    | none => simp [check_password_needed, hf]
    | some f => cases hr : read f <;> simp [check_password_needed, hf, hr]

/-- Claim C7: on the standard create path, a per-file compression failure is
skipped and does not flip the result: with the archive container written the
function returns success, even when every individual file failed to be
added (nothing ends up in the archive). -/
theorem create_standard_zip_tolerates_file_failures (files : List String)
    (writeOk : String → Bool) :
    (create_standard_zip true writeOk files).1 = true ∧
    ((∀ f ∈ files, writeOk f = false) →
      (create_standard_zip true writeOk files).2 = []) := by
  refine ⟨rfl, fun h => ?_⟩
  show writeLoop writeOk [] files = []
  rw [writeLoop_eq, List.nil_append]
  exact filter_eq_nil_of_forall writeOk files h

/-- Witness for C7: both files fail to compress, yet the call reports
success and the archive holds no member. -/
theorem create_standard_zip_tolerates_file_failures_witness :
    (∀ f ∈ ["a.txt", "b.txt"], (fun _ : String => false) f = false) ∧
    (create_standard_zip true (fun _ => false) ["a.txt", "b.txt"]).1 = true ∧
    (create_standard_zip true (fun _ => false) ["a.txt", "b.txt"]).2 = [] := by
  have h := create_standard_zip_tolerates_file_failures ["a.txt", "b.txt"] (fun _ => false)
  exact ⟨fun f _ => rfl, h.1, h.2 (fun f _ => rfl)⟩

/-- Claim C8: the session fields are mutated only by a successful
list_zip_contents, which replaces all three wholesale; any failing call
returns the state exactly as it was. -/
theorem list_zip_contents_session_state (openResult : Except OpenError (List ZipInfo))
    (read : ZipInfo → ReadOutcome) (st : ManagerState) (zip_path : String)
    (password : Option String) :
    ((list_zip_contents openResult read st zip_path password).2 = none →
      (list_zip_contents openResult read st zip_path password).1 = st) ∧
    (∀ l, (list_zip_contents openResult read st zip_path password).2 = some l →
      (list_zip_contents openResult read st zip_path password).1 =
        { current_zip_path := some zip_path, current_zip_info := some l,
          password := password }) := by
  cases openResult with
  | error e => exact ⟨fun _ => rfl, fun l hl => by simp [list_zip_contents] at hl⟩
  | ok infos =>
    cases hl : listLoop (pyTruthy password) read [] infos with
    | none =>
      refine ⟨fun _ => ?_, fun l h => ?_⟩
      · simp [list_zip_contents, hl]
      · simp [list_zip_contents, hl] at h
    | some fl =>
      refine ⟨fun h => ?_, fun l h => ?_⟩
      · simp [list_zip_contents, hl] at h
      · simp only [list_zip_contents, hl] at h ⊢
        cases h
        rfl

/-- Witness for C8: a failing open leaves a fresh state untouched, and a
successful listing installs the new path, listing and password. -/
theorem list_zip_contents_session_state_witness :
    (list_zip_contents (Except.error OpenError.badZipFile) readProbe
        initState "a.zip" none).1 = initState ∧
    (list_zip_contents (Except.ok [sampleFileA]) readProbe
        initState "a.zip" none).1 =
      { current_zip_path := some "a.zip", current_zip_info := some [sampleFileA],
        password := none } := by
  refine ⟨(list_zip_contents_session_state _ readProbe initState "a.zip" none).1 rfl,
    (list_zip_contents_session_state _ readProbe initState "a.zip" none).2
      [sampleFileA] rfl⟩

/-- Claim C1: extract_all_files enumerates only non-directory members — the
extracted members are exactly the non-directory members whose extraction
succeeded and the count is their number — and it succeeds precisely when
there was no non-directory member at all (a no-op success, nothing
extracted) or the count is positive; hence an archive in which every
member's extraction fails reports failure. -/
theorem extract_all_files_success_policy (entries : List ZipInfo)
    (extractOk : ZipInfo → Bool) :
    (extract_all_files true (Except.ok entries) extractOk).2.2 =
        (entries.filter (fun f => !f.is_dir)).filter extractOk ∧
    (extract_all_files true (Except.ok entries) extractOk).2.1 =
        ((entries.filter (fun f => !f.is_dir)).filter extractOk).length ∧
    ((extract_all_files true (Except.ok entries) extractOk).1 = true ↔
      (entries.filter (fun f => !f.is_dir) = [] ∨
        0 < (extract_all_files true (Except.ok entries) extractOk).2.1)) := by
  by_cases hemp : (entries.filter (fun f => !f.is_dir)).length = 0
  · have hnil : entries.filter (fun f => !f.is_dir) = [] := List.length_eq_zero.mp hemp
    simp [extract_all_files, hemp, hnil]
  · have hne : entries.filter (fun f => !f.is_dir) ≠ [] := by
      intro h; exact hemp (by rw [h]; rfl)
    simp [extract_all_files, hemp, extractAllLoop_eq, hne]

/-- Claim C4: extract_selected_files drops every out-of-range index before
processing, keeping order and multiplicity; the extracted members are
exactly the entries fetched at the surviving valid indices that are
non-directories and extract cleanly, the count is their number, and the
call succeeds precisely when that count is positive — in particular an
empty filtered index set fails; on the concrete example, indices [0, 2, 99]
against a 3-file archive extract entries 0 and 2, silently drop 99, and the
call succeeds with 2 processed. -/
theorem extract_selected_files_valid_indices (entries : List ZipInfo)
    (extractOk : ZipInfo → Bool) (indices : List Int) :
    (extract_selected_files true (Except.ok entries) extractOk indices).2.2 =
        ((valid_indices indices entries.length).map (fetchEntry entries)).filter
          (fun e => !e.is_dir && extractOk e) ∧
    (extract_selected_files true (Except.ok entries) extractOk indices).2.1 =
        (((valid_indices indices entries.length).map (fetchEntry entries)).filter
          (fun e => !e.is_dir && extractOk e)).length ∧
    ((extract_selected_files true (Except.ok entries) extractOk indices).1 = true ↔
        0 < (extract_selected_files true (Except.ok entries) extractOk indices).2.1) ∧
    extract_selected_files true (Except.ok [sampleFileA, sampleFileB, sampleFileC])
        (fun _ => true) [0, 2, 99] = (true, 2, [sampleFileA, sampleFileC]) := by
  have key : (extract_selected_files true (Except.ok entries) extractOk indices).2.2 =
        ((valid_indices indices entries.length).map (fetchEntry entries)).filter
          (fun e => !e.is_dir && extractOk e) ∧
      (extract_selected_files true (Except.ok entries) extractOk indices).2.1 =
        (((valid_indices indices entries.length).map (fetchEntry entries)).filter
          (fun e => !e.is_dir && extractOk e)).length ∧
      ((extract_selected_files true (Except.ok entries) extractOk indices).1 = true ↔
        0 < (extract_selected_files true (Except.ok entries) extractOk indices).2.1) := by
    by_cases hemp : (valid_indices indices entries.length).isEmpty
    · have hnil : valid_indices indices entries.length = [] := by
        cases hv : valid_indices indices entries.length with
        | nil => rfl
        | cons a l => rw [hv] at hemp; exact absurd hemp (by simp)
      simp [extract_selected_files, hemp, hnil]
    · simp [extract_selected_files, hemp, selectedLoop_eq, filter_comm_map]
  exact ⟨key.1, key.2.1, key.2.2, by decide⟩

/-- Claim C9: when every surviving valid index refers to a directory entry,
each is skipped with a warning, nothing is extracted, and
extract_selected_files returns failure with count 0 even though no
per-member extraction failed. -/
theorem extract_selected_files_all_directories (entries : List ZipInfo)
    (extractOk : ZipInfo → Bool) (indices : List Int)
    (hne : valid_indices indices entries.length ≠ [])
    (hdir : ∀ i ∈ valid_indices indices entries.length,
      (fetchEntry entries i).is_dir = true) :
    extract_selected_files true (Except.ok entries) extractOk indices =
      (false, 0, []) := by
  have hemp : (valid_indices indices entries.length).isEmpty = false := by
    cases hv : valid_indices indices entries.length with
    | nil => exact absurd hv hne
    | cons a l => rfl
  have hfil : (valid_indices indices entries.length).filter
      (fun i => !(fetchEntry entries i).is_dir && extractOk (fetchEntry entries i)) = [] :=
    filter_eq_nil_of_forall _ _ (fun i hi => by simp [hdir i hi])
  simp [extract_selected_files, hemp, selectedLoop_eq, hfil]

/-- Witness for C9: a single valid index selecting the only entry, a
directory — the call fails with nothing extracted. -/
theorem extract_selected_files_all_directories_witness :
    valid_indices [0] [sampleDir].length ≠ [] ∧
    (∀ i ∈ valid_indices [0] [sampleDir].length,
      (fetchEntry [sampleDir] i).is_dir = true) ∧
    extract_selected_files true (Except.ok [sampleDir]) (fun _ => true) [0] =
      (false, 0, []) := by
  exact ⟨by decide, by decide,
    extract_selected_files_all_directories [sampleDir] (fun _ => true) [0]
      (by decide) (by decide)⟩

/-- Claim C10: the caller-supplied indices are not deduplicated — the count
equals the number of occurrences of surviving valid indices whose entry is
a non-directory that extracts cleanly, and the extracted list repeats the
fetched entry once per occurrence, in the order given; with a single-file
archive and indices [0, 0, 0] the same entry is extracted three times, so
the count exceeds the number of distinct selected entries. -/
theorem extract_selected_files_duplicates (entries : List ZipInfo)
    (extractOk : ZipInfo → Bool) (indices : List Int) :
    (extract_selected_files true (Except.ok entries) extractOk indices).2.1 =
        ((valid_indices indices entries.length).filter (fun i =>
          !(fetchEntry entries i).is_dir && extractOk (fetchEntry entries i))).length ∧
    (extract_selected_files true (Except.ok entries) extractOk indices).2.2 =
        ((valid_indices indices entries.length).filter (fun i =>
          !(fetchEntry entries i).is_dir && extractOk (fetchEntry entries i))).map
          (fetchEntry entries) ∧
    extract_selected_files true (Except.ok [sampleFileA]) (fun _ => true) [0, 0, 0] =
      (true, 3, [sampleFileA, sampleFileA, sampleFileA]) := by
  refine ⟨?_, ?_, by decide⟩ <;>
  · by_cases hemp : (valid_indices indices entries.length).isEmpty
    · have hnil : valid_indices indices entries.length = [] := by
        cases hv : valid_indices indices entries.length with
        | nil => rfl
        | cons a l => rw [hv] at hemp; exact absurd hemp (by simp)
      simp [extract_selected_files, hemp, hnil]
    · simp [extract_selected_files, hemp, selectedLoop_eq]

/-- Claim C3: with a password supplied, every non-directory member is
authenticated by attempting a read, and exactly the members whose read
raises the authentication or corruption error are silently omitted while
the listing continues: the returned list is the directories together with
the members that read cleanly, in archive order. -/
theorem list_zip_contents_skips_failing_members (entries : List ZipInfo)
    (read : ZipInfo → ReadOutcome) (st : ManagerState) (zip_path : String)
    (p : String) (hp : p.isEmpty = false)
    (hother : ∀ e ∈ entries, e.is_dir = false → read e ≠ ReadOutcome.otherError) :
    (list_zip_contents (Except.ok entries) read st zip_path (some p)).2 =
      some (entries.filter (fun e => e.is_dir || decide (read e = ReadOutcome.ok))) :=
  list_zip_contents_password_filter entries read st zip_path p hp hother

/-- Witness for C3: the member bad.txt fails authentication and is omitted,
while the listing continues with the remaining file and the directory. -/
theorem list_zip_contents_skips_failing_members_witness :
    ("pw".isEmpty = false) ∧
    (∀ e ∈ [badFile, sampleFileB, sampleDir], e.is_dir = false →
      readProbe e ≠ ReadOutcome.otherError) ∧
    (list_zip_contents (Except.ok [badFile, sampleFileB, sampleDir]) readProbe
        initState "a.zip" (some "pw")).2 = some [sampleFileB, sampleDir] := by
  refine ⟨by decide, by decide, ?_⟩
  rw [list_zip_contents_skips_failing_members [badFile, sampleFileB, sampleDir]
    readProbe initState "a.zip" "pw" (by decide) (by decide)]
  decide

/-- Counterexample to claim C2: password "pw" is supplied and authentication
fails on the first (and only) readable member, yet list_zip_contents does
not fail — it returns a listing (here the empty one), because the inner
handler of the member loop catches the RuntimeError and skips the member,
so the outer BadPassword branch is never reached from a member read. -/
theorem list_zip_contents_bad_password_counterexample :
    (list_zip_contents (Except.ok [badFile]) (fun _ => ReadOutcome.authError)
        initState "a.zip" (some "pw")).2 = some [] ∧
    (list_zip_contents (Except.ok [badFile]) (fun _ => ReadOutcome.authError)
        initState "a.zip" (some "pw")).2 ≠ none := by
  exact ⟨by decide, by decide⟩

/-- Claim C2 as amended: when a password is supplied and authentication
fails on the first readable (non-directory) member, list_zip_contents does
not fail with a BadPassword error — it still returns a listing, one from
which that member is omitted. -/
theorem list_zip_contents_listing_despite_auth_failure (entries : List ZipInfo)
    (read : ZipInfo → ReadOutcome) (st : ManagerState) (zip_path : String)
    (p : String) (hp : p.isEmpty = false)
    (hother : ∀ e ∈ entries, e.is_dir = false → read e ≠ ReadOutcome.otherError)
    (e0 : ZipInfo) (h0 : entries.find? (fun e => !e.is_dir) = some e0)
    (hfail : read e0 = ReadOutcome.authError) :
    ∃ l, (list_zip_contents (Except.ok entries) read st zip_path (some p)).2 = some l ∧
      e0 ∉ l := by
  refine ⟨entries.filter (fun e => e.is_dir || decide (read e = ReadOutcome.ok)),
    list_zip_contents_password_filter entries read st zip_path p hp hother, ?_⟩
  intro hmem
  have hpred := (List.mem_filter.mp hmem).2
  have hdir := List.find?_some h0
  rw [hfail] at hpred
  simp only [Bool.not_eq_true'] at hdir
  simp [hdir] at hpred

/-- Witness for the amended C2: concrete archive whose first readable
member fails authentication; the call returns a listing without it. -/
theorem list_zip_contents_listing_despite_auth_failure_witness :
    ∃ l, (list_zip_contents (Except.ok [badFile, sampleDir]) readProbe
        initState "a.zip" (some "pw")).2 = some l ∧ badFile ∉ l := by
  exact list_zip_contents_listing_despite_auth_failure [badFile, sampleDir] readProbe
    initState "a.zip" "pw" (by decide) (by decide) badFile (by decide) (by decide)
